import Mathlib

/-!
Verification of the OpenMuse NBA data pipeline core logic.

This file gives a shallow embedding, in Lean, of the core control flow of the
pipeline scripts under `src/data/scripts/`:

* `call_with_retries` (src/data/scripts/nba/collector.py, lines 49-74): the
  exponential-backoff retry wrapper around remote calls;
* the windowed circuit breaker of `collect_data_for_all_teams` /
  `collect_data_for_all_players` (same file, lines 389-398 and 430-439);
* `_already_collected_ids` and the already-collected filtering of the bulk
  collection drivers (same file, lines 338-369);
* `generate_embeddings_batch` and `process_file`
  (src/data/scripts/nba_embeddings_generator.py);
* `upload_documents` in both connector variants
  (src/data/scripts/nba_mongodb_connector.py and src/data/scripts/nba/connector.py).

Remote calls, the embedding service and the document store are modelled as
explicit function parameters describing the outcome of each external
interaction; exceptions are modelled with `Except`, Python `None` with
`Option`, and sleeps are recorded as explicit lists of delays.
-/

namespace OpenMuse

/-! ### Retrying remote caller

`call_with_retries` (src/data/scripts/nba/collector.py):

```python
def call_with_retries(api_func, max_retries=5, initial_delay=2, timeout=60, *a, **kw):
    delay = initial_delay
    last_exc = None
    for attempt in range(1, max_retries + 1):
        try:
            result = api_func(...)
            return result
        except (requests.exceptions.Timeout, requests.exceptions.ConnectionError) as e:
            time.sleep(delay); delay *= 2; last_exc = e
        except Exception as e:
            time.sleep(delay); delay *= 2; last_exc = e
    raise last_exc
```

The wrapped operation is modelled by `behavior : Nat → Except ε ρ`, giving the
outcome of each attempt (attempts numbered from 1, as in the source).  Both
`except` arms of the source are literally identical up to the log message, so a
single error branch models them.  The function returns the final outcome
together with the list of sleeps performed, in order.  The final `raise
last_exc` is modelled as `Except.error lastExc` with `lastExc : Option ε`:
`Except.error none` is the degenerate `raise None` reached when the loop body
never ran. -/

/-- The loop of `call_with_retries`: `remaining` attempts left, current
`attempt` number, current `delay`, and `lastExc` the last exception seen. -/
def callWithRetriesGo (behavior : Nat → Except ε ρ) :
    Nat → Nat → Nat → Option ε → Except (Option ε) ρ × List Nat
  | 0, _, _, lastExc => (Except.error lastExc, [])
  | remaining + 1, attempt, delay, _ =>
    match behavior attempt with
    | Except.ok r => (Except.ok r, [])
    | Except.error e =>
      let rest := callWithRetriesGo behavior remaining (attempt + 1) (delay * 2) (some e)
      (rest.1, delay :: rest.2)

/-- `call_with_retries api_func max_retries initial_delay`: result and the
list of backoff sleeps performed. -/
def call_with_retries (behavior : Nat → Except ε ρ) (maxRetries : Nat)
    (initialDelay : Nat) : Except (Option ε) ρ × List Nat :=
  callWithRetriesGo behavior maxRetries 1 initialDelay none

/-- Helper: once `lastExc` is `some e`, the loop can never produce the
degenerate `Except.error none` result. -/
lemma callWithRetriesGo_ne_error_none (behavior : Nat → Except ε ρ) :
    ∀ remaining attempt delay e,
      (callWithRetriesGo behavior remaining attempt delay (some e)).1 ≠
        Except.error none := by
  intro remaining
  induction remaining with
  | zero => intro attempt delay e h; simp [callWithRetriesGo] at h
  | succ n ih =>
    intro attempt delay e h
    rw [callWithRetriesGo] at h
    cases hb : behavior attempt with
    | ok r => rw [hb] at h; simp at h
    | error e' =>
      rw [hb] at h
      simp only at h
      exact ih (attempt + 1) (delay * 2) e' h

/-- Helper: if every attempt in the window `[attempt, attempt + remaining)`
fails with `es k`, the loop exhausts, re-raises the last exception, and sleeps
once per failed attempt. -/
lemma callWithRetriesGo_all_fail (behavior : Nat → Except ε ρ) (es : Nat → ε) :
    ∀ remaining attempt delay lastExc, 1 ≤ remaining →
      (∀ k, attempt ≤ k → k < attempt + remaining → behavior k = Except.error (es k)) →
      (callWithRetriesGo behavior remaining attempt delay lastExc).1 =
          Except.error (some (es (attempt + remaining - 1))) ∧
        (callWithRetriesGo behavior remaining attempt delay lastExc).2.length = remaining := by
  intro remaining
  induction remaining with
  | zero => intro attempt delay lastExc h; omega
  | succ n ih =>
    intro attempt delay lastExc _ hfail
    have hb : behavior attempt = Except.error (es attempt) :=
      hfail attempt (le_refl _) (by omega)
    rw [callWithRetriesGo, hb]
    cases n with
    | zero => simp [callWithRetriesGo]
    | succ m =>
      have := ih (attempt + 1) (delay * 2) (some (es attempt)) (by omega)
        (fun k hk1 hk2 => hfail k (by omega) (by omega))
      refine ⟨?_, ?_⟩
      · simpa [show attempt + 1 + (m + 1) - 1 = attempt + (m + 1 + 1) - 1 by omega]
          using this.1
      · simpa using this.2

/-- C1 — `call_with_retries` with `max_retries = 5` on an operation failing on
attempts 1–4 and succeeding on attempt 5 returns the successful result, and
the backoff sleeps performed are exactly `d, 2d, 4d, 8d`, in that order. -/
theorem call_with_retries_backoff (behavior : Nat → Except ε ρ) (d : Nat) (r : ρ)
    (hfail : ∀ k, 1 ≤ k → k ≤ 4 → ∃ e, behavior k = Except.error e)
    (hsucc : behavior 5 = Except.ok r) :
    call_with_retries behavior 5 d = (Except.ok r, [d, 2 * d, 4 * d, 8 * d]) := by
  obtain ⟨e1, h1⟩ := hfail 1 (by omega) (by omega)
  obtain ⟨e2, h2⟩ := hfail 2 (by omega) (by omega)
  obtain ⟨e3, h3⟩ := hfail 3 (by omega) (by omega)
  obtain ⟨e4, h4⟩ := hfail 4 (by omega) (by omega)
  simp only [call_with_retries, callWithRetriesGo, h1, h2, h3, h4, hsucc]
  simp only [Prod.mk.injEq, List.cons.injEq, and_true, true_and]
  and_intros <;> first | rfl | omega

/-- Witness for C1 at a concrete operation and delay. -/
theorem call_with_retries_backoff_witness :
    call_with_retries (fun k => if k = 5 then Except.ok 42 else Except.error k) 5 3 =
      (Except.ok (42 : Nat), [3, 6, 12, 24]) := by
  have := call_with_retries_backoff
    (fun k => if k = 5 then Except.ok 42 else Except.error k) 3 42
    (fun k hk1 hk4 => ⟨k, by interval_cases k <;> rfl⟩) rfl
  simpa using this

/-- C8 — when the operation fails on all `max_retries ≥ 1` attempts,
`call_with_retries` raises the exception from the last attempt, and every
failed attempt — whatever exception type it raised — was followed by a backoff
sleep (one sleep per attempt, i.e. no exception class is fast-failed). -/
theorem call_with_retries_exhaustion (behavior : Nat → Except ε ρ) (es : Nat → ε)
    (m d : Nat) (hm : 1 ≤ m)
    (hfail : ∀ k, 1 ≤ k → k ≤ m → behavior k = Except.error (es k)) :
    (call_with_retries behavior m d).1 = Except.error (some (es m)) ∧
      (call_with_retries behavior m d).2.length = m := by
  have := callWithRetriesGo_all_fail behavior es m 1 d none hm
    (fun k hk1 hk2 => hfail k hk1 (by omega))
  rw [call_with_retries]
  exact ⟨by simpa [show 1 + m - 1 = m by omega] using this.1, this.2⟩

/-- Witness for C8 at a concrete operation that fails on both of 2 attempts. -/
theorem call_with_retries_exhaustion_witness :
    (call_with_retries (fun k => (Except.error k : Except Nat Nat)) 2 7).1 =
        Except.error (some 2) ∧
      (call_with_retries (fun k => (Except.error k : Except Nat Nat)) 2 7).2.length = 2 :=
  call_with_retries_exhaustion (fun k => Except.error k) (fun k => k) 2 7 (by omega)
    (fun k _ _ => rfl)

/-- C10 — with `max_retries = 0` the attempt loop never runs, the wrapped
operation is never consulted (the result is the same for every `behavior`),
and the function reaches `raise last_exc` with `last_exc` still `None`
(modelled `Except.error none`); with `max_retries ≥ 1` that degenerate branch
is unreachable: the result is a success or carries an actual exception. -/
theorem call_with_retries_degenerate {ε ρ : Type} :
    (∀ (behavior : Nat → Except ε ρ) (d : Nat),
        call_with_retries behavior 0 d = (Except.error none, [])) ∧
      (∀ (behavior : Nat → Except ε ρ) (m d : Nat), 1 ≤ m →
        (call_with_retries behavior m d).1 ≠ Except.error none) := by
  constructor
  · intro behavior d; rfl
  · intro behavior m d hm h
    cases m with
    | zero => omega
    | succ n =>
      rw [call_with_retries, callWithRetriesGo] at h
      cases hb : behavior 1 with
      | ok r => rw [hb] at h; simp at h
      | error e =>
        rw [hb] at h
        simp only at h
        exact callWithRetriesGo_ne_error_none behavior n 2 (d * 2) e h

/-- Witness for C10: both conjuncts applied at concrete inputs. -/
theorem call_with_retries_degenerate_witness :
    call_with_retries (fun _ => (Except.error 0 : Except Nat Nat)) 0 5 =
        (Except.error none, []) ∧
      (call_with_retries (fun _ => (Except.error 0 : Except Nat Nat)) 1 5).1 ≠
        Except.error none :=
  ⟨call_with_retries_degenerate.1 _ 5, call_with_retries_degenerate.2 _ 1 5 (by omega)⟩

/-! ### Bulk collection driver: windowed circuit breaker

`collect_data_for_all_teams` (src/data/scripts/nba/collector.py, lines 430-439;
the player variant at 389-398 is identical up to `max_timeouts = 10`,
`timeout_window = 30`):

```python
timeout_tracker = {'count': 0}
max_timeouts = 5
timeout_window = 10
for i, _ in enumerate(executor.map(process_team, teams_to_process)):
    if (i + 1) % timeout_window == 0:
        if timeout_tracker['count'] >= max_timeouts:
            break
        timeout_tracker['count'] = 0
```

`process_team` increments `timeout_tracker['count']` exactly when the entity's
collection raised after retry exhaustion.  The driver is modelled as a
sequential consumption of the per-entity outcomes (`true` = the entity
errored), which is the processing order of the consuming loop; the model
returns the number of entities processed before the breaker (if it trips)
stops the run. -/

/-- The breaker loop: remaining outcomes, current zero-based position `i`, and
the running error `count` of the current window. Returns how many entities are
processed. -/
def circuitBreakerRun (window threshold : Nat) : List Bool → Nat → Nat → Nat
  | [], _, _ => 0
  | failed :: rest, i, count =>
    let count' := count + (if failed then 1 else 0)
    if (i + 1) % window = 0 then
      if threshold ≤ count' then 1
      else 1 + circuitBreakerRun window threshold rest (i + 1) 0
    else 1 + circuitBreakerRun window threshold rest (i + 1) count'

/-- Number of entities the driver processes for a given outcome sequence. -/
def processedEntities (window threshold : Nat) (outcomes : List Bool) : Nat :=
  circuitBreakerRun window threshold outcomes 0 0

/-- Number of errored entities in a window of outcomes. -/
def failCount (outcomes : List Bool) : Nat := (outcomes.filter id).length

/-- The breaker loop only consults the position through `(i + 1) % window`. -/
lemma circuitBreakerRun_mod (window threshold : Nat) :
    ∀ (l : List Bool) (i j count : Nat), i % window = j % window →
      circuitBreakerRun window threshold l i count =
        circuitBreakerRun window threshold l j count := by
  intro l
  induction l with
  | nil => intro i j count _; rfl
  | cons o rest ih =>
    intro i j count hij
    have hstep : (i + 1) % window = (j + 1) % window := by
      rw [Nat.add_mod, hij, ← Nat.add_mod]
    rw [circuitBreakerRun, circuitBreakerRun, hstep]
    by_cases h : (j + 1) % window = 0 <;>
      simp only [h, if_true, if_false] <;>
      [skip; rw [ih (i + 1) (j + 1) _ hstep]]
    by_cases ht : threshold ≤ count + (if o then 1 else 0) <;>
      simp only [ht, if_true, if_false]
    rw [ih (i + 1) (j + 1) 0 hstep]

/-- Running the breaker through one full window `first` starting `first.length`
short of the window boundary: all of `first` is processed, and afterwards the
run either stops (error count at the boundary reached the threshold) or
continues on `rest` with the counter reset to zero. -/
lemma circuitBreakerRun_window (window threshold : Nat) :
    ∀ (first rest : List Bool) (count : Nat), 0 < first.length →
      first.length ≤ window →
      circuitBreakerRun window threshold (first ++ rest)
          (window - first.length) count =
        first.length +
          (if threshold ≤ count + failCount first then 0
           else circuitBreakerRun window threshold rest window 0) := by
  intro first
  induction first with
  | nil => intro rest count h; simp at h
  | cons o first' ih =>
    intro rest count _ hle
    cases h' : first' with
    | nil =>
      subst h'
      have hw : 0 < window := by simpa using hle
      rw [List.singleton_append, circuitBreakerRun]
      have hi : window - [o].length + 1 = window := by simp; omega
      rw [hi, Nat.mod_self]
      simp only [if_true, eq_self_iff_true]
      have hfc : failCount [o] = if o then 1 else 0 := by
        cases o <;> simp [failCount]
      rw [hfc]
      by_cases ht : threshold ≤ count + (if o then 1 else 0) <;>
        simp [ht, List.length_singleton]
    | cons b l =>
      rw [← h']
      have hlen1 : 0 < first'.length := by rw [h']; simp
      have hlen2 : first'.length < window := by
        have := hle; simp at this; omega
      rw [List.cons_append, circuitBreakerRun]
      have hne : (window - (o :: first').length + 1) % window ≠ 0 := by
        have h1 : window - (o :: first').length + 1 = window - first'.length := by
          simp; omega
        rw [h1, Nat.mod_eq_of_lt (by omega)]
        omega
      simp only [hne, if_false, if_neg hne]
      have h1 : window - (o :: first').length + 1 = window - first'.length := by
        simp; omega
      rw [h1, ih rest (count + if o then 1 else 0) hlen1 (by omega)]
      have hfc : failCount (o :: first') = (if o then 1 else 0) + failCount first' := by
        cases o <;> simp [failCount, Nat.add_comm]
      rw [hfc]
      have harith : count + (if o then 1 else 0) + failCount first' =
          count + ((if o then 1 else 0) + failCount first') := by omega
      rw [harith]
      simp [List.length_cons]
      omega

/-- C5 — team-collection circuit breaker (`timeout_window = 10`,
`max_timeouts = 5`): over the first window of 10 processed entities, if at
least 5 errored the driver stops after that window (exactly the 10 window
entities are processed, none of the rest); if exactly 4 errored the driver
continues, with the window error counter reset to zero, and the remainder of
the run behaves exactly like a fresh run on the remaining entities. -/
theorem team_collection_circuit_breaker (first rest : List Bool)
    (hlen : first.length = 10) :
    (5 ≤ failCount first → processedEntities 10 5 (first ++ rest) = 10) ∧
      (failCount first = 4 →
        processedEntities 10 5 (first ++ rest) = 10 + processedEntities 10 5 rest) := by
  have hwin := circuitBreakerRun_window 10 5 first rest 0 (by omega) (by omega)
  rw [hlen] at hwin
  simp only [show (10 : Nat) - 10 = 0 from rfl, Nat.zero_add] at hwin
  constructor
  · intro h5
    rw [processedEntities, hwin]
    simp [h5]
  · intro h4
    rw [processedEntities, hwin, h4]
    have hlt : ¬ (5 ≤ 4) := by omega
    simp only [hlt, if_neg hlt]
    rw [circuitBreakerRun_mod 10 5 rest 10 0 0 (by norm_num)]
    rfl

/-- Witness for C5: a first window with 5 failures stops the run at 10; a
first window with 4 failures continues into the remaining 3 entities. -/
theorem team_collection_circuit_breaker_witness :
    processedEntities 10 5
        ([true, true, true, true, true, false, false, false, false, false] ++
          [false, false, false]) = 10 ∧
      processedEntities 10 5
          ([true, true, true, true, false, false, false, false, false, false] ++
            [false, false, false]) =
        10 + processedEntities 10 5 [false, false, false] :=
  ⟨(team_collection_circuit_breaker
      [true, true, true, true, true, false, false, false, false, false]
      [false, false, false] (by decide)).1 (by decide),
    (team_collection_circuit_breaker
      [true, true, true, true, false, false, false, false, false, false]
      [false, false, false] (by decide)).2 (by decide)⟩

/-! ### Batch chunking

Both `upload_documents` variants and `generate_embeddings_batch` slice their
input as `for i in range(0, len(xs), batch_size): batch = xs[i:i+batch_size]`.
The chunking is embedded with an explicit fuel (initialised to the list
length, which always suffices for `batch_size ≥ 1`) so that it is structural
and computable by the kernel. -/

/-- Fueled chunking loop; for `batchSize = 0` the Python `range` would raise
`ValueError`, a case never reached by the scripts (batch sizes 100 / 10 / 2),
so the model returns `[]` there. -/
def chunkBatchesGo (batchSize : Nat) : Nat → List δ → List (List δ)
  | _, [] => []
  | 0, _ :: _ => []
  | fuel + 1, d :: ds =>
    if batchSize = 0 then []
    else (d :: ds).take batchSize :: chunkBatchesGo batchSize fuel ((d :: ds).drop batchSize)

/-- `xs[i:i+batch_size]` slices for `i = 0, batch_size, 2*batch_size, ...`. -/
def chunkBatches (batchSize : Nat) (l : List δ) : List (List δ) :=
  chunkBatchesGo batchSize l.length l

/-- The fuel is irrelevant as long as it dominates the list length. -/
lemma chunkBatchesGo_fuel (batchSize : Nat) (hb : 0 < batchSize) :
    ∀ fuel fuel' (l : List δ), l.length ≤ fuel → l.length ≤ fuel' →
      chunkBatchesGo batchSize fuel l = chunkBatchesGo batchSize fuel' l := by
  intro fuel
  induction fuel with
  | zero =>
    intro fuel' l hl _
    cases l with
    | nil => cases fuel' <;> rfl
    | cons d ds => simp at hl
  | succ n ih =>
    intro fuel' l hl hl'
    cases l with
    | nil => cases fuel' <;> rfl
    | cons d ds =>
      cases fuel' with
      | zero => simp at hl'
      | succ m =>
        rw [chunkBatchesGo, chunkBatchesGo]
        simp only [if_neg (by omega : ¬ batchSize = 0)]
        have hl₁ : ds.length + 1 ≤ n + 1 := by simpa using hl
        have hl₂ : ds.length + 1 ≤ m + 1 := by simpa using hl'
        congr 1
        exact ih m ((d :: ds).drop batchSize)
          (by simp only [List.length_drop, List.length_cons]; omega)
          (by simp only [List.length_drop, List.length_cons]; omega)

/-- Unfolding equation on nonempty input for positive batch size. -/
lemma chunkBatches_cons (batchSize : Nat) (hb : 0 < batchSize) (d : δ) (ds : List δ) :
    chunkBatches batchSize (d :: ds) =
      (d :: ds).take batchSize :: chunkBatches batchSize ((d :: ds).drop batchSize) := by
  rw [chunkBatches, List.length_cons, chunkBatchesGo,
    if_neg (by omega : ¬ batchSize = 0)]
  congr 1
  exact chunkBatchesGo_fuel batchSize hb ds.length ((d :: ds).drop batchSize).length
    ((d :: ds).drop batchSize)
    (by simp only [List.length_drop, List.length_cons]; omega) (le_refl _)

lemma chunkBatches_nil (batchSize : Nat) : chunkBatches batchSize ([] : List δ) = [] := rfl

/-- Unfolding equation stated for any nonempty list. -/
lemma chunkBatches_ne_nil (batchSize : Nat) (hb : 0 < batchSize) (l : List δ)
    (hl : l ≠ []) :
    chunkBatches batchSize l =
      l.take batchSize :: chunkBatches batchSize (l.drop batchSize) := by
  cases l with
  | nil => exact absurd rfl hl
  | cons d ds => exact chunkBatches_cons batchSize hb d ds

/-- Concatenating the chunks gives back the input. -/
lemma flatten_chunkBatches (batchSize : Nat) (hb : 0 < batchSize) (l : List δ) :
    (chunkBatches batchSize l).flatten = l := by
  have main : ∀ n (l : List δ), l.length = n → (chunkBatches batchSize l).flatten = l := by
    intro n
    induction n using Nat.strong_induction_on with
    | _ n ih =>
      intro l hl
      cases l with
      | nil => rfl
      | cons d ds =>
        rw [chunkBatches_cons batchSize hb, List.flatten_cons]
        rw [ih ((d :: ds).drop batchSize).length
          (by simp only [List.length_drop, List.length_cons] at *; omega)
          ((d :: ds).drop batchSize) rfl]
        exact List.take_append_drop _ _
  exact main l.length l rfl

/-! ### Upload / index manager

`upload_documents` exists in two variants.

`src/data/scripts/nba_mongodb_connector.py`, lines 200-241:

```python
if not self.connect():
    return 0
if clear_first:
    self.clear_collection()
if not self.check_vector_index():
    if not self.create_vector_index():
        logger.error("Failed to create vector index")
        return 0
total_uploaded = 0
for i in range(0, len(documents), batch_size):
    batch = documents[i:i+batch_size]
    try:
        result = self.collection.insert_many(batch)
        total_uploaded += len(result.inserted_ids)
    except Exception as e:
        logger.error(...)
return total_uploaded
```

`src/data/scripts/nba/connector.py`, lines 184-210, differs only in the index
step:

```python
try:
    self.check_vector_index()
    self.create_vector_index()
except Exception as e:
    logger.warning(f"Ignoring vector index error: {e}")
```

The store is modelled by the boolean outcome of `connect`, the boolean
results of `check_vector_index` / `create_vector_index` (each catches its own
exceptions internally and returns a bool), and `insertResult i batch`, the
outcome of `insert_many` on the `i`-th batch (`Except.ok n` = `n` inserted
ids, `Except.error` = the insert raised).  `clear_collection` catches its own
exceptions and its result is ignored by the source, so the `clearFirst` flag
cannot influence the returned count.  The per-batch `try/except` appears as
the `Except.error ↦ 0` branch: no insert failure escapes the loop, so both
variants always return a count rather than raising. -/

/-- The batch upload loop over batches numbered from `i`: running total of
successful batch counts, failed batches contributing zero. -/
def uploadBatchesGo (insertResult : Nat → List δ → Except ε Nat) :
    Nat → List (List δ) → Nat
  | _, [] => 0
  | i, b :: bs =>
    (match insertResult i b with
     | Except.ok n => n
     | Except.error _ => 0) + uploadBatchesGo insertResult (i + 1) bs

/-- Total documents reported uploaded by the batch loop. -/
def uploadBatchesTotal (insertResult : Nat → List δ → Except ε Nat)
    (batches : List (List δ)) : Nat :=
  uploadBatchesGo insertResult 0 batches

/-- `upload_documents` of `src/data/scripts/nba_mongodb_connector.py`. -/
def upload_documents_mongodb (connectOk clearFirst checkIndexOk createIndexOk : Bool)
    (insertResult : Nat → List δ → Except ε Nat) (documents : List δ)
    (batchSize : Nat) : Nat :=
  if !connectOk then 0
  else
    -- `clear_first` only triggers `clear_collection`, whose bool result is dropped
    if !checkIndexOk && !createIndexOk then 0
    else uploadBatchesTotal insertResult (chunkBatches batchSize documents)

/-- `upload_documents` of `src/data/scripts/nba/connector.py`: the index step
runs under a `try/except` that ignores any error, and the bool results of the
index calls are discarded, so neither affects the upload. -/
def upload_documents_nba (connectOk clearFirst checkIndexOk createIndexOk : Bool)
    (insertResult : Nat → List δ → Except ε Nat) (documents : List δ)
    (batchSize : Nat) : Nat :=
  if !connectOk then 0
  else uploadBatchesTotal insertResult (chunkBatches batchSize documents)

/-- The three batches of a 250-document upload with batch size 100. -/
lemma chunkBatches_250 (documents : List δ) (hlen : documents.length = 250) :
    chunkBatches 100 documents =
      [documents.take 100, (documents.drop 100).take 100, documents.drop 200] := by
  have h1 : (documents.drop 100).length = 150 := by
    simp only [List.length_drop, hlen]
  have h3 : ((documents.drop 100).drop 100).length = 50 := by
    simp only [List.length_drop, hlen]
  rw [chunkBatches_ne_nil 100 (by omega) documents
    (by intro h; rw [h] at hlen; simp at hlen)]
  rw [chunkBatches_ne_nil 100 (by omega) (documents.drop 100)
    (by intro h; rw [h] at h1; simp at h1)]
  rw [chunkBatches_ne_nil 100 (by omega) ((documents.drop 100).drop 100)
    (by intro h; rw [h] at h3; simp at h3)]
  have h5 : ((documents.drop 100).drop 100).take 100 = (documents.drop 100).drop 100 :=
    List.take_of_length_le (by omega)
  have h6 : ((documents.drop 100).drop 100).drop 100 = [] :=
    List.drop_eq_nil_of_le (by omega)
  rw [h5, h6, chunkBatches_nil, List.drop_drop]

/-- C3 — uploading 250 documents with batch size 100, where the second
batch's `insert_many` raises and the first and third succeed in full, returns
exactly `100 + 0 + 50 = 150` in both connector variants: the failed batch
contributes zero, the third batch still runs, and the insert failure is
swallowed by the per-batch handler (the function returns a count, it does not
raise). -/
theorem upload_documents_batch_isolation {δ ε : Type} (documents : List δ) (e : ε)
    (hlen : documents.length = 250) (cf₁ ci₁ cf₂ ca₂ cb₂ : Bool) :
    upload_documents_mongodb true cf₁ true ci₁
        (fun i b => if i = 1 then Except.error e else Except.ok b.length)
        documents 100 = 150 ∧
      upload_documents_nba true cf₂ ca₂ cb₂
        (fun i b => if i = 1 then Except.error e else Except.ok b.length)
        documents 100 = 150 := by
  have hchunks := chunkBatches_250 documents hlen
  have htot : uploadBatchesTotal
      (fun i b => if i = 1 then Except.error e else Except.ok b.length)
      (chunkBatches 100 documents) = 150 := by
    rw [hchunks]
    have l1 : (documents.take 100).length = 100 := by
      simp only [List.length_take, hlen]; omega
    have l3 : (documents.drop 200).length = 50 := by
      simp only [List.length_drop, hlen]
    rw [uploadBatchesTotal]
    simp only [uploadBatchesGo]
    norm_num [l1, l3]
  constructor
  · rw [upload_documents_mongodb]
    cases ci₁ <;> simp [htot]
  · rw [upload_documents_nba]
    simp [htot]

/-- Witness for C3 at a concrete 250-document list. -/
theorem upload_documents_batch_isolation_witness :
    upload_documents_mongodb true false true false
        (fun i b => if i = 1 then Except.error () else Except.ok b.length)
        (List.replicate 250 (0 : Nat)) 100 = 150 ∧
      upload_documents_nba true false false false
        (fun i b => if i = 1 then Except.error () else Except.ok b.length)
        (List.replicate 250 (0 : Nat)) 100 = 150 :=
  upload_documents_batch_isolation (List.replicate 250 0) ()
    (List.length_replicate 250 0) false false false false false

/-- C7 counterexample — in `nba_mongodb_connector.py`, a call where ensuring
the vector index fails (`check_vector_index` and `create_vector_index` both
return `False`) returns 0 and skips the batch loop entirely, although the
batch write itself would have persisted the document: index failure does
abort this upload. -/
theorem upload_documents_mongodb_index_abort :
    upload_documents_mongodb true false false false
        (fun _ b => (Except.ok b.length : Except Unit Nat)) [(0 : Nat)] 100 = 0 ∧
      uploadBatchesTotal (fun _ b => (Except.ok b.length : Except Unit Nat))
        (chunkBatches 100 [(0 : Nat)]) = 1 := by
  constructor
  · rfl
  · rfl

/-- C7 (amended) — index-failure behaviour of the two `upload_documents`
variants: in `nba/connector.py` the index check/create outcomes never affect
the result (failures are logged and ignored, upload proceeds exactly as on
success); in `nba_mongodb_connector.py` the upload proceeds when the index
check fails but creation succeeds, yet aborts with 0 — without writing any
batch — when the check fails and creation also fails. -/
theorem upload_documents_index_failure_behavior {δ ε : Type}
    (insertResult : Nat → List δ → Except ε Nat) (documents : List δ)
    (batchSize : Nat) (cf chk₁ cr₁ chk₂ cr₂ : Bool) :
    (upload_documents_nba true cf chk₁ cr₁ insertResult documents batchSize =
        upload_documents_nba true cf chk₂ cr₂ insertResult documents batchSize) ∧
      (upload_documents_mongodb true cf false true insertResult documents batchSize =
        uploadBatchesTotal insertResult (chunkBatches batchSize documents)) ∧
      (upload_documents_mongodb true cf false false insertResult documents batchSize = 0) := by
  refine ⟨rfl, ?_, rfl⟩
  rw [upload_documents_mongodb]
  simp

/-! ### Embedding batcher

`generate_embeddings_batch` (src/data/scripts/nba_embeddings_generator.py,
lines 88-138):

```python
all_embeddings = []
for i in range(0, len(texts), batch_size):
    batch = texts[i:i+batch_size]
    for attempt in range(retry_limit):
        try:
            response = self.client.embeddings.create(model=..., input=batch)
            sorted_embeddings = sorted(response.data, key=lambda x: x.index)
            batch_embeddings = [item.embedding for item in sorted_embeddings]
            all_embeddings.extend(batch_embeddings)
            time.sleep(0.5)
            break
        except Exception as e:
            if attempt < retry_limit - 1:
                time.sleep(retry_delay)
            else:
                all_embeddings.extend([[] for _ in range(len(batch))])
return all_embeddings
```

The embedding service is modelled by `service j a`, the outcome of the API
call for the `j`-th batch on (zero-based) attempt `a`: `Except.ok resp` where
`resp` is the list of `(index, embedding)` pairs of `response.data` in the
order the service returned them, or `Except.error` when the call raised.
Embedding vectors are `List α`; `[]` is the failed-batch placeholder. -/

/-- `sorted(response.data, key=lambda x: x.index)` — Python `sorted` is a
stable sort by the key, here the service-reported index. -/
def sortByIndex (resp : List (Nat × List α)) : List (Nat × List α) :=
  resp.mergeSort (fun a b => decide (a.1 ≤ b.1))

/-- The per-batch retry loop: result of the first successful attempt among
`remaining` tries, `none` when all raised. -/
def attemptLoop (callBatch : Nat → Except ε ρ) : Nat → Nat → Option ρ
  | _, 0 => none
  | attempt, remaining + 1 =>
    match callBatch attempt with
    | Except.ok r => some r
    | Except.error _ => attemptLoop callBatch (attempt + 1) remaining

/-- `generate_embeddings_batch`: the ordered concatenation of per-batch
results — a successful batch contributes its embeddings sorted by the
service-reported index, an exhausted batch contributes one `[]` placeholder
per text. -/
def generate_embeddings_batch (service : Nat → Nat → Except ε (List (Nat × List α)))
    (texts : List String) (batchSize retryLimit : Nat) : List (List α) :=
  (((chunkBatches batchSize texts).enum).map fun p =>
    match attemptLoop (service p.1) 0 retryLimit with
    | some resp => (sortByIndex resp).map Prod.snd
    | none => List.replicate p.2.length ([] : List α)).flatten

/-- Sorting by index recovers the canonical index-ordered response: any
permutation of `canon.enum`, re-sorted by its first component, is
`canon.enum` itself. -/
lemma sortByIndex_perm_enum (resp : List (Nat × List α)) (canon : List (List α))
    (hperm : resp.Perm canon.enum) : sortByIndex resp = canon.enum := by
  have hsorted := @List.sorted_mergeSort (Nat × List α)
    (fun a b => decide (a.1 ≤ b.1))
    (fun a b c h1 h2 => by simp at *; omega)
    (fun a b => by simp; omega) resp
  have hperm2 : (sortByIndex resp).Perm canon.enum :=
    (List.mergeSort_perm resp _).trans hperm
  have hnodup : (canon.enum.map Prod.fst).Nodup := by
    rw [List.enum_map_fst]; exact List.nodup_range _
  have hnodup2 : ((sortByIndex resp).map Prod.fst).Nodup :=
    (hperm2.map Prod.fst).nodup_iff.mpr hnodup
  have hpairne : (sortByIndex resp).Pairwise (fun a b => a.1 ≠ b.1) :=
    List.pairwise_map.mp hnodup2
  have hpairle : (sortByIndex resp).Pairwise (fun a b => a.1 ≤ b.1) :=
    hsorted.imp (fun h => by simpa using h)
  have hs1 : (sortByIndex resp).Pairwise
      (fun a b : Nat × List α => a.1 < b.1 ∨ a = b) :=
    (hpairle.and hpairne).imp (fun h => Or.inl (lt_of_le_of_ne h.1 h.2))
  have hs2 : canon.enum.Pairwise (fun a b : Nat × List α => a.1 < b.1 ∨ a = b) := by
    have h := List.pairwise_lt_range canon.length
    rw [← List.enum_map_fst canon] at h
    exact (List.pairwise_map.mp h).imp (fun h => Or.inl h)
  haveI : IsAntisymm (Nat × List α) (fun a b => a.1 < b.1 ∨ a = b) := by
    constructor
    rintro a b (h1 | rfl) (h2 | h3)
    · omega
    · exact h3.symm
    · rfl
    · rfl
  exact List.eq_of_perm_of_sorted hperm2 hs1 hs2

/-- Flatten-of-map over an enumerated list, rewriting each element by an
index-aware congruence. -/
lemma flatten_map_enumFrom_congr {β γ : Type} (F G : Nat × β → List γ) :
    ∀ (l : List β) (n : Nat), (∀ p ∈ l.enumFrom n, F p = G p) →
      ((l.enumFrom n).map F).flatten = ((l.enumFrom n).map G).flatten := by
  intro l
  induction l with
  | nil => intro n _; rfl
  | cons a l ih =>
    intro n h
    rw [List.enumFrom_cons, List.map_cons, List.map_cons, List.flatten_cons,
      List.flatten_cons]
    rw [h (n, a) (by rw [List.enumFrom_cons]; exact List.mem_cons_self _ _),
      ih (n + 1) (fun p hp => h p (by rw [List.enumFrom_cons]; exact List.mem_cons_of_mem _ hp))]

/-- Flatten-of-map over an enumerated list when each element's image ignores
the index. -/
lemma flatten_map_enumFrom {β γ : Type} (F : Nat × β → List γ) (G : β → List γ) :
    ∀ (l : List β) (n : Nat), (∀ p ∈ l.enumFrom n, F p = G p.2) →
      ((l.enumFrom n).map F).flatten = (l.map G).flatten := by
  intro l
  induction l with
  | nil => intro n _; rfl
  | cons a l ih =>
    intro n h
    rw [List.enumFrom_cons, List.map_cons, List.map_cons, List.flatten_cons,
      List.flatten_cons]
    rw [h (n, a) (by rw [List.enumFrom_cons]; exact List.mem_cons_self _ _),
      ih (n + 1) (fun p hp => h p (by rw [List.enumFrom_cons]; exact List.mem_cons_of_mem _ hp))]

/-- C2 — order preservation: whenever each batch's service call succeeds on
its first attempt with a response that is some permutation of the
index-tagged embeddings of that batch, `generate_embeddings_batch` yields the
embeddings in exactly the input order of the texts. -/
theorem generate_embeddings_order {α ε : Type} (embed : String → List α)
    (service : Nat → Nat → Except ε (List (Nat × List α)))
    (texts : List String) (batchSize retryLimit : Nat)
    (hbs : 0 < batchSize) (hr : 0 < retryLimit)
    (hresp : ∀ p ∈ (chunkBatches batchSize texts).enum,
      ∃ r, service p.1 0 = Except.ok r ∧ r.Perm ((p.2.map embed).enum)) :
    generate_embeddings_batch service texts batchSize retryLimit = texts.map embed := by
  rw [generate_embeddings_batch]
  show ((List.enumFrom 0 (chunkBatches batchSize texts)).map _).flatten = _
  refine Eq.trans
    (flatten_map_enumFrom _ (fun b => b.map embed) (chunkBatches batchSize texts) 0 ?_) ?_
  · intro p hp
    obtain ⟨r, hok, hperm⟩ := hresp p hp
    have hloop : attemptLoop (service p.1) 0 retryLimit = some r := by
      cases retryLimit with
      | zero => omega
      | succ n => rw [attemptLoop, hok]
    dsimp only
    rw [hloop]
    show List.map Prod.snd (sortByIndex r) = List.map embed p.2
    rw [sortByIndex_perm_enum r (p.2.map embed) hperm, List.enum_map_snd]
  · rw [← List.map_flatten, flatten_chunkBatches batchSize hbs]

/-- Witness for C2 on the spec's own example: the batch `[a, b, c]` whose
service response is tagged `[(2,v3),(0,v1),(1,v2)]` yields `[v1, v2, v3]`. -/
theorem generate_embeddings_order_witness :
    generate_embeddings_batch
        (fun _ _ => (Except.ok [(2, [3]), (0, [1]), (1, [2])] :
          Except Unit (List (Nat × List Nat))))
        ["a", "b", "c"] 10 3 = [[1], [2], [3]] := by
  have h := generate_embeddings_order
    (fun t => if t = "a" then [1] else if t = "b" then [2] else [3])
    (fun _ _ => (Except.ok [(2, [3]), (0, [1]), (1, [2])] :
      Except Unit (List (Nat × List Nat))))
    ["a", "b", "c"] 10 3 (by omega) (by omega) ?_
  · rw [h]
    decide
  · intro p hp
    have hp' : p = (0, ["a", "b", "c"]) := by
      have : (chunkBatches 10 ["a", "b", "c"]).enum = [(0, ["a", "b", "c"])] := by decide
      rw [this] at hp
      simpa using hp
    subst hp'
    exact ⟨[(2, [3]), (0, [1]), (1, [2])], rfl, by decide⟩

/-! ### Embedding stage: attaching embeddings and dropping failures

`process_file` (src/data/scripts/nba_embeddings_generator.py, lines 140-186):

```python
texts = [doc["text"] for doc in documents]
embeddings = self.generate_embeddings_batch(texts)
for i, embedding in enumerate(embeddings):
    if embedding:  # Skip empty embeddings (failed API calls)
        documents[i]["embedding"] = embedding
documents_with_embeddings = [doc for doc in documents if "embedding" in doc]
```

A document is a dict with a `text` field and an optional `embedding` field
(absent on the processed-data input, present after attachment).  The model
keeps only these two fields; the remaining metadata plays no role in this
logic. -/

/-- A document of the embedding stage: `text` plus the optional `embedding`
key. -/
structure EmbDoc (α : Type) where
  text : String
  embedding : Option (List α)
deriving DecidableEq

/-- The attachment loop `for i, embedding in enumerate(embeddings): if
embedding: documents[i]["embedding"] = embedding`: position `i` gets its
embedding if nonempty; documents beyond `embeddings.length` are left
untouched. -/
def attachEmbeddings (docs : List (EmbDoc α)) (embs : List (List α)) : List (EmbDoc α) :=
  docs.zipWith (fun d v => if v.isEmpty then d else { d with embedding := some v }) embs
    ++ docs.drop embs.length

/-- `process_file`, from embedding generation to the filtered
`documents_with_embeddings` that get persisted and later uploaded. -/
def process_file (service : Nat → Nat → Except ε (List (Nat × List α)))
    (documents : List (EmbDoc α)) (batchSize retryLimit : Nat) : List (EmbDoc α) :=
  (attachEmbeddings documents
      (generate_embeddings_batch service (documents.map EmbDoc.text) batchSize retryLimit)).filter
    (fun d => d.embedding.isSome)

lemma attachEmbeddings_cons (d : EmbDoc α) (ds : List (EmbDoc α)) (v : List α)
    (vs : List (List α)) :
    attachEmbeddings (d :: ds) (v :: vs) =
      (if v.isEmpty then d else { d with embedding := some v }) :: attachEmbeddings ds vs := by
  rw [attachEmbeddings, attachEmbeddings, List.zipWith_cons_cons, List.length_cons,
    List.drop_succ_cons, List.cons_append]

/-- When every input document lacks an embedding, the number of documents
surviving the filter equals the number of nonempty embedding vectors. -/
lemma attach_filter_count (docs : List (EmbDoc α)) :
    ∀ embs : List (List α), docs.length = embs.length →
      (∀ d ∈ docs, d.embedding = none) →
      ((attachEmbeddings docs embs).filter (fun d => d.embedding.isSome)).length =
        (embs.filter (fun v => !v.isEmpty)).length := by
  induction docs with
  | nil =>
    intro embs hlen _
    cases embs with
    | nil => rfl
    | cons v vs => simp at hlen
  | cons d ds ih =>
    intro embs hlen hnone
    cases embs with
    | nil => simp at hlen
    | cons v vs =>
      rw [attachEmbeddings_cons]
      have hd : d.embedding = none := hnone d (List.mem_cons_self _ _)
      have hih := ih vs (by simpa using hlen)
        (fun x hx => hnone x (List.mem_cons_of_mem _ hx))
      by_cases hv : v.isEmpty
      · rw [if_pos hv]
        simp only [List.filter_cons, hd, hv, Option.isSome_none, Bool.not_true,
          cond_false, Bool.false_eq_true, if_neg (by simp : ¬ (false = true))]
        simpa using hih
      · rw [if_neg hv]
        simp only [List.filter_cons, hv, Bool.not_false]
        simp only [Option.isSome_some, if_pos rfl]
        simp [hih]

/-- A map through `embed` survives the nonemptiness filter whole when every
embedding is nonempty. -/
lemma filter_nonEmpty_map (embed : String → List α)
    (h : ∀ t, (embed t).isEmpty = false) (c : List String) :
    (c.map embed).filter (fun v => !v.isEmpty) = c.map embed := by
  refine List.filter_eq_self.mpr ?_
  intro v hv
  obtain ⟨t, _, rfl⟩ := List.mem_map.mp hv
  simp [h]

/-- Placeholder vectors are all removed by the nonemptiness filter. -/
lemma filter_nonEmpty_replicate (n : Nat) :
    (List.replicate n ([] : List α)).filter (fun v => !v.isEmpty) = [] := by
  induction n with
  | zero => rfl
  | succ m ih => rw [List.replicate_succ, List.filter_cons]; simp [ih]

/-- A permanently failing batch call exhausts every attempt. -/
lemma attemptLoop_none (callBatch : Nat → Except ε ρ) (e : ε)
    (hfail : ∀ a, callBatch a = Except.error e) :
    ∀ remaining attempt, attemptLoop callBatch attempt remaining = none := by
  intro remaining
  induction remaining with
  | zero => intro attempt; rfl
  | succ n ih => intro attempt; rw [attemptLoop, hfail attempt]; exact ih (attempt + 1)

/-- The five batches of a 10-text embedding run with batch size 2. -/
lemma chunkBatches_2_of_len10 {γ : Type} (l : List γ) (hlen : l.length = 10) :
    chunkBatches 2 l =
      [l.take 2, (l.drop 2).take 2, (l.drop 4).take 2, (l.drop 6).take 2, l.drop 8] := by
  have h2 : (l.drop 2).length = 8 := by simp only [List.length_drop, hlen]
  have h4 : (l.drop 4).length = 6 := by simp only [List.length_drop, hlen]
  have h6 : (l.drop 6).length = 4 := by simp only [List.length_drop, hlen]
  have h8 : (l.drop 8).length = 2 := by simp only [List.length_drop, hlen]
  have d24 : (l.drop 2).drop 2 = l.drop 4 := by rw [List.drop_drop]
  have d46 : (l.drop 4).drop 2 = l.drop 6 := by rw [List.drop_drop]
  have d68 : (l.drop 6).drop 2 = l.drop 8 := by rw [List.drop_drop]
  rw [chunkBatches_ne_nil 2 (by omega) l
    (List.length_pos.mp (by rw [hlen]; norm_num))]
  rw [chunkBatches_ne_nil 2 (by omega) (l.drop 2)
    (List.length_pos.mp (by rw [h2]; norm_num)), d24]
  rw [chunkBatches_ne_nil 2 (by omega) (l.drop 4)
    (List.length_pos.mp (by rw [h4]; norm_num)), d46]
  rw [chunkBatches_ne_nil 2 (by omega) (l.drop 6)
    (List.length_pos.mp (by rw [h6]; norm_num)), d68]
  rw [chunkBatches_ne_nil 2 (by omega) (l.drop 8)
    (List.length_pos.mp (by rw [h8]; norm_num))]
  have htake : (l.drop 8).take 2 = l.drop 8 :=
    List.take_of_length_le (by rw [h8])
  have hdrop : (l.drop 8).drop 2 = [] :=
    List.drop_eq_nil_of_le (by rw [h8])
  rw [htake, hdrop, chunkBatches_nil]

/-- C4 — embedding-failure filtering: (i) every document returned by
`process_file` (and hence persisted and later passed to upload) carries an
embedding; (ii) in a 10-document run with batch size 2 in which the second
batch fails permanently (its 2 documents) and every other batch succeeds,
exactly 8 documents are persisted. -/
theorem process_file_embedding_filter {α ε : Type} :
    (∀ (service : Nat → Nat → Except ε (List (Nat × List α)))
        (documents : List (EmbDoc α)) (batchSize retryLimit : Nat),
        ∀ d ∈ process_file service documents batchSize retryLimit,
          d.embedding.isSome = true) ∧
      (∀ (service : Nat → Nat → Except ε (List (Nat × List α)))
          (documents : List (EmbDoc α)) (embed : String → List α) (e : ε),
          documents.length = 10 →
          (∀ d ∈ documents, d.embedding = none) →
          (∀ t, (embed t).isEmpty = false) →
          (∀ a, service 1 a = Except.error e) →
          (∀ p ∈ (chunkBatches 2 (documents.map EmbDoc.text)).enum, p.1 ≠ 1 →
            ∃ r, service p.1 0 = Except.ok r ∧ r.Perm ((p.2.map embed).enum)) →
          (process_file service documents 2 3).length = 8) := by
  constructor
  · intro service documents batchSize retryLimit d hd
    rw [process_file] at hd
    exact (List.mem_filter.mp hd).2
  · intro service documents embed e hlen hnone hnonempty hfail hresp
    have htlen : (documents.map EmbDoc.text).length = 10 := by
      rw [List.length_map, hlen]
    have hchunks := chunkBatches_2_of_len10 (documents.map EmbDoc.text) htlen
    have lc0 : ((documents.map EmbDoc.text).take 2).length = 2 := by
      simp [List.length_take, htlen]
    have lc1 : (((documents.map EmbDoc.text).drop 2).take 2).length = 2 := by
      simp [List.length_take, List.length_drop, htlen]
    have lc2 : (((documents.map EmbDoc.text).drop 4).take 2).length = 2 := by
      simp [List.length_take, List.length_drop, htlen]
    have lc3 : (((documents.map EmbDoc.text).drop 6).take 2).length = 2 := by
      simp [List.length_take, List.length_drop, htlen]
    have lc4 : ((documents.map EmbDoc.text).drop 8).length = 2 := by
      simp [List.length_drop, htlen]
    have hemb : generate_embeddings_batch service (documents.map EmbDoc.text) 2 3 =
        ((documents.map EmbDoc.text).take 2).map embed ++
          (List.replicate (((documents.map EmbDoc.text).drop 2).take 2).length
              ([] : List α) ++
            ((((documents.map EmbDoc.text).drop 4).take 2).map embed ++
              ((((documents.map EmbDoc.text).drop 6).take 2).map embed ++
                ((documents.map EmbDoc.text).drop 8).map embed))) := by
      rw [generate_embeddings_batch]
      show ((List.enumFrom 0 (chunkBatches 2 (documents.map EmbDoc.text))).map _).flatten = _
      refine Eq.trans (flatten_map_enumFrom_congr _
        (fun p => if p.1 = 1 then List.replicate p.2.length ([] : List α)
          else p.2.map embed)
        (chunkBatches 2 (documents.map EmbDoc.text)) 0 ?_) ?_
      · intro p hp
        by_cases hp1 : p.1 = 1
        · dsimp only
          rw [hp1, attemptLoop_none (service 1) e hfail 3 0, if_pos rfl]
        · obtain ⟨r, hok, hperm⟩ := hresp p hp hp1
          have hloop : attemptLoop (service p.1) 0 3 = some r := by
            rw [attemptLoop, hok]
          dsimp only
          rw [hloop, if_neg hp1]
          show List.map Prod.snd (sortByIndex r) = List.map embed p.2
          rw [sortByIndex_perm_enum r (p.2.map embed) hperm, List.enum_map_snd]
      · rw [hchunks]
        simp [List.enumFrom_cons]
    have hdl : documents.length =
        (generate_embeddings_batch service (documents.map EmbDoc.text) 2 3).length := by
      rw [hemb]
      simp only [List.length_append, List.length_map, List.length_replicate,
        lc0, lc1, lc2, lc3, lc4, hlen]
    rw [process_file, attach_filter_count documents _ hdl hnone, hemb]
    rw [List.filter_append, List.filter_append, List.filter_append, List.filter_append]
    rw [filter_nonEmpty_map embed hnonempty, filter_nonEmpty_map embed hnonempty,
      filter_nonEmpty_map embed hnonempty, filter_nonEmpty_map embed hnonempty,
      filter_nonEmpty_replicate]
    simp only [List.length_append, List.length_map, List.length_nil,
      lc0, lc2, lc3, lc4]

/-- Witness for C4: 10 concrete documents, batch size 2, the second batch
permanently failing, all other batches succeeding. -/
theorem process_file_embedding_filter_witness :
    (∀ d ∈ process_file
        (fun j _ => if j = 1 then Except.error ()
          else (Except.ok [(0, [1]), (1, [1])] : Except Unit (List (Nat × List Nat))))
        (List.replicate 10 (⟨"t", none⟩ : EmbDoc Nat)) 2 3,
      d.embedding.isSome = true) ∧
      (process_file
          (fun j _ => if j = 1 then Except.error ()
            else (Except.ok [(0, [1]), (1, [1])] : Except Unit (List (Nat × List Nat))))
          (List.replicate 10 (⟨"t", none⟩ : EmbDoc Nat)) 2 3).length = 8 := by
  constructor
  · exact process_file_embedding_filter.1 _ _ 2 3
  · refine process_file_embedding_filter.2 _ _ (fun _ => [1]) ()
      (List.length_replicate 10 _) ?_ (fun t => rfl) (fun a => rfl) ?_
    · intro d hd
      rw [List.eq_of_mem_replicate hd]
    · intro p hp hp1
      have hlist : (chunkBatches 2
          ((List.replicate 10 (⟨"t", none⟩ : EmbDoc Nat)).map EmbDoc.text)).enum =
          [(0, ["t", "t"]), (1, ["t", "t"]), (2, ["t", "t"]), (3, ["t", "t"]),
            (4, ["t", "t"])] := rfl
      rw [hlist] at hp
      simp only [List.mem_cons, List.not_mem_nil, or_false] at hp
      rcases hp with h | h | h | h | h <;> subst h <;>
        first
        | exact absurd rfl hp1
        | exact ⟨[(0, [1]), (1, [1])], rfl, by decide⟩

/-! ### Checkpoint scan and idempotent resume

`_already_collected_ids` (src/data/scripts/nba/collector.py, lines 338-352):

```python
ids = set()
if not os.path.exists(self.output_dir):
    return ids
for fname in os.listdir(self.output_dir):
    if fname.startswith(prefix) and fname.endswith('.json'):
        try:
            id_part = fname[len(prefix):-5]
            ids.add(int(id_part))
        except Exception:
            continue
return ids
```

and the filtering in `collect_data_for_all_players` (lines 362-369):

```python
all_players = self.collect_all_players()
if limit:
    all_players = all_players[:limit]
already_collected = self._already_collected_ids('player_')
players_to_process = [p for p in all_players if p['id'] not in already_collected]
if not players_to_process: return
def process_player(player): ...
    player_info = self.collect_player_info(player_id)
    career_stats = self.collect_player_career_stats(player_id)
```

Filenames are modelled as character lists (Python strings), with the format
of the per-player output file exactly as written by `process_player`:
`f"player_{player_id}.json"`, the id in canonical decimal.  `int(...)` is
modelled as a digits-only decimal parse returning `none` on anything else —
the shape the `except ...: continue` handler turns into a skip.  Each
per-entity fetch goes through `_get_with_cache`: a cache hit performs no
remote call, a miss performs one and stores the key. -/

/-- `str.startswith(pre)` over character lists. -/
def startsWithCL : List Char → List Char → Bool
  | [], _ => true
  | _ :: _, [] => false
  | p :: ps, c :: cs => p == c && startsWithCL ps cs

/-- `str.endswith(suf)` over character lists. -/
def endsWithCL (suf l : List Char) : Bool := startsWithCL suf.reverse l.reverse

/-- Decimal digits of `n` (the characters of Python `str(n)`), with explicit
fuel (initialised to `n + 1`, always sufficient) keeping the recursion
structural. -/
def natDigitsGo : Nat → Nat → List Char
  | 0, _ => []
  | fuel + 1, n =>
    if n < 10 then [Nat.digitChar n]
    else natDigitsGo fuel (n / 10) ++ [Nat.digitChar (n % 10)]

/-- The decimal rendering of `n` used in f-strings such as
`f"player_{player_id}.json"`. -/
def natDigits (n : Nat) : List Char := natDigitsGo (n + 1) n

/-- `int(s)` as applied to the canonical decimal strings the collector itself
writes: a digits-only parse; every other shape yields `none`, the model of
the `ValueError` swallowed by the `except Exception: continue`. -/
def parseNat (cs : List Char) : Option Nat :=
  if cs.isEmpty then none
  else if cs.all (fun c => decide (48 ≤ c.toNat ∧ c.toNat ≤ 57)) then
    some (cs.foldl (fun acc c => acc * 10 + (c.toNat - 48)) 0)
  else none

lemma digitChar_toNat (d : Nat) (hd : d < 10) : (Nat.digitChar d).toNat = 48 + d := by
  interval_cases d <;> decide

lemma natDigitsGo_ne_nil : ∀ fuel n, n < fuel → natDigitsGo fuel n ≠ [] := by
  intro fuel
  cases fuel with
  | zero => intro n h; omega
  | succ f =>
    intro n _
    rw [natDigitsGo]
    by_cases h10 : n < 10
    · simp [h10]
    · simp [h10]

lemma natDigitsGo_digits : ∀ fuel n, n < fuel →
    ∀ c ∈ natDigitsGo fuel n, 48 ≤ c.toNat ∧ c.toNat ≤ 57 := by
  intro fuel
  induction fuel with
  | zero => intro n h; omega
  | succ f ih =>
    intro n hn c hc
    rw [natDigitsGo] at hc
    by_cases h10 : n < 10
    · rw [if_pos h10] at hc
      simp only [List.mem_singleton] at hc
      subst hc
      rw [digitChar_toNat n h10]
      omega
    · rw [if_neg h10] at hc
      rcases List.mem_append.mp hc with h | h
      · exact ih (n / 10) (by omega) c h
      · simp only [List.mem_singleton] at h
        subst h
        rw [digitChar_toNat (n % 10) (by omega)]
        omega

lemma natDigitsGo_foldl : ∀ fuel n acc, n < fuel →
    (natDigitsGo fuel n).foldl (fun a c => a * 10 + (c.toNat - 48)) acc =
      acc * 10 ^ (natDigitsGo fuel n).length + n := by
  intro fuel
  induction fuel with
  | zero => intro n acc h; omega
  | succ f ih =>
    intro n acc hn
    rw [natDigitsGo]
    by_cases h10 : n < 10
    · rw [if_pos h10]
      simp [List.foldl_cons, digitChar_toNat n h10]
    · rw [if_neg h10]
      rw [List.foldl_append, List.length_append]
      rw [ih (n / 10) acc (by omega)]
      simp only [List.foldl_cons, List.foldl_nil, List.length_singleton]
      rw [digitChar_toNat (n % 10) (by omega)]
      have hmod : n % 10 + 48 - 48 = n % 10 := by omega
      rw [pow_succ]
      have := Nat.div_add_mod n 10
      ring_nf
      omega

/-- `int(str(n)) == n`: the digits-only parse inverts decimal rendering. -/
lemma parseNat_natDigits (n : Nat) : parseNat (natDigits n) = some n := by
  have hne := natDigitsGo_ne_nil (n + 1) n (Nat.lt_succ_self n)
  have hdig := natDigitsGo_digits (n + 1) n (Nat.lt_succ_self n)
  have hfold := natDigitsGo_foldl (n + 1) n 0 (Nat.lt_succ_self n)
  rw [natDigits, parseNat]
  rw [if_neg (by simp [List.isEmpty_iff]; exact hne)]
  rw [if_pos (List.all_eq_true.mpr (fun c hc => by
    have := hdig c hc
    simp only [decide_eq_true_eq]
    omega))]
  rw [hfold]
  simp

/-- The per-player output filename written by `process_player`:
`f"player_{player_id}.json"`. -/
def playerFileName (id : Nat) : List Char :=
  "player_".toList ++ natDigits id ++ ".json".toList

/-- One iteration of the `_already_collected_ids` loop on a filename:
`startswith`/`endswith` checks, slice out `fname[len(prefix):-5]`, parse it as
an int, skipping on failure. -/
def parseCollectedId (pre fname : List Char) : Option Nat :=
  if startsWithCL pre fname && endsWithCL ".json".toList fname then
    parseNat ((fname.take (fname.length - 5)).drop pre.length)
  else none

/-- `_already_collected_ids` on a successful directory listing: the set of
ids whose per-entity file exists (represented as the list of parsed ids). -/
def already_collected_ids (pre : List Char) (files : List (List Char)) : List Nat :=
  files.filterMap (parseCollectedId pre)

lemma startsWithCL_append (pre rest : List Char) :
    startsWithCL pre (pre ++ rest) = true := by
  induction pre with
  | nil => rfl
  | cons p ps ih => simp [startsWithCL, ih]

lemma endsWithCL_append (suf l : List Char) : endsWithCL suf (l ++ suf) = true := by
  rw [endsWithCL, List.reverse_append]
  exact startsWithCL_append _ _

/-- Parsing a canonical player filename recovers the player id. -/
lemma parseCollectedId_fileName (id : Nat) :
    parseCollectedId "player_".toList (playerFileName id) = some id := by
  rw [parseCollectedId, playerFileName]
  have hstart : startsWithCL "player_".toList
      ("player_".toList ++ natDigits id ++ ".json".toList) = true := by
    rw [List.append_assoc]
    exact startsWithCL_append _ _
  have hend : endsWithCL ".json".toList
      ("player_".toList ++ natDigits id ++ ".json".toList) = true :=
    endsWithCL_append _ _
  rw [if_pos (by rw [hstart, hend]; rfl)]
  have hlen : ("player_".toList ++ natDigits id ++ ".json".toList).length - 5 =
      ("player_".toList ++ natDigits id).length := by
    simp [List.length_append]
  rw [hlen, List.take_left' rfl, List.drop_left' rfl]
  exact parseNat_natDigits id

/-- A player reference record: `{'id': ..., 'full_name': ...}`. -/
structure Player where
  id : Nat
  full_name : String
deriving DecidableEq

/-- `players_to_process = [p for p in all_players if p['id'] not in already_collected]`. -/
def playersToProcess (allPlayers : List Player) (collected : List Nat) : List Player :=
  allPlayers.filter (fun p => decide (p.id ∉ collected))

/-- `if limit: all_players = all_players[:limit]` — note `limit = 0` is falsy
and leaves the list whole. -/
def applyLimit : Option Nat → List Player → List Player
  | some n, l => if n = 0 then l else l.take n
  | none, l => l

/-- Cache key `f"player_info_{player_id}"`. -/
def playerInfoKey (id : Nat) : List Char := "player_info_".toList ++ natDigits id

/-- Cache key `f"player_career_stats_{player_id}"`. -/
def playerCareerKey (id : Nat) : List Char :=
  "player_career_stats_".toList ++ natDigits id

/-- `_get_with_cache`: a hit performs no remote fetch; a miss performs one
and stores the key.  Returns the updated cache and the number of remote
calls made. -/
def fetchWithCache (cache : List (List Char)) (key : List Char) :
    List (List Char) × Nat :=
  if key ∈ cache then (cache, 0) else (key :: cache, 1)

/-- `process_player`: the two cached fetches for one player. -/
def processPlayerCalls (cache : List (List Char)) (id : Nat) :
    List (List Char) × Nat :=
  let r1 := fetchWithCache cache (playerInfoKey id)
  let r2 := fetchWithCache r1.1 (playerCareerKey id)
  (r2.1, r1.2 + r2.2)

/-- Total remote calls made processing a list of players in order, threading
the cache. -/
def runPlayersCalls (cache : List (List Char)) : List Player → Nat
  | [] => 0
  | p :: ps =>
    (processPlayerCalls cache p.id).2 +
      runPlayersCalls (processPlayerCalls cache p.id).1 ps

/-- `collect_data_for_all_players`, measured by the number of per-entity
remote calls it performs: the already-collected ids are removed from the work
list before any per-entity processing starts. -/
def collect_data_for_all_players (cache : List (List Char))
    (allPlayers : List Player) (limit : Option Nat)
    (listing : List (List Char)) : Nat :=
  runPlayersCalls cache
    (playersToProcess (applyLimit limit allPlayers)
      (already_collected_ids "player_".toList listing))

lemma applyLimit_subset (limit : Option Nat) (l : List Player) (p : Player)
    (hp : p ∈ applyLimit limit l) : p ∈ l := by
  cases limit with
  | none => exact hp
  | some n =>
    rw [applyLimit] at hp
    by_cases h0 : n = 0
    · rwa [if_pos h0] at hp
    · rw [if_neg h0] at hp
      exact List.mem_of_mem_take hp

/-- C6 — idempotent resume: if every player's output file is present in the
directory listing, a re-run performs zero per-entity remote calls, whatever
the state of the in-memory cache and whatever the player limit: every id
parses back out of its filename and is filtered from the work list. -/
theorem second_run_zero_remote_calls (allPlayers : List Player)
    (listing : List (List Char)) (limit : Option Nat) (cache : List (List Char))
    (hfiles : ∀ p ∈ allPlayers, playerFileName p.id ∈ listing) :
    collect_data_for_all_players cache allPlayers limit listing = 0 := by
  rw [collect_data_for_all_players]
  have hempty : playersToProcess (applyLimit limit allPlayers)
      (already_collected_ids "player_".toList listing) = [] := by
    rw [playersToProcess, List.filter_eq_nil_iff]
    intro p hp
    have hmem : p ∈ allPlayers := applyLimit_subset limit allPlayers p hp
    have hcol : p.id ∈ already_collected_ids "player_".toList listing :=
      List.mem_filterMap.mpr
        ⟨playerFileName p.id, hfiles p hmem, parseCollectedId_fileName p.id⟩
    simp only [decide_eq_true_eq, not_not]
    exact hcol
  rw [hempty]
  rfl

/-- Witness for C6 at a concrete roster, listing and nonempty cache. -/
theorem second_run_zero_remote_calls_witness :
    collect_data_for_all_players [playerInfoKey 23]
      [⟨23, "LeBron James"⟩, ⟨30, "Stephen Curry"⟩] none
      [playerFileName 23, playerFileName 30, "all_players.json".toList] = 0 :=
  second_run_zero_remote_calls
    [⟨23, "LeBron James"⟩, ⟨30, "Stephen Curry"⟩]
    [playerFileName 23, playerFileName 30, "all_players.json".toList]
    none [playerInfoKey 23] (by decide)

/-! ### Checkpoint scan against a failing filesystem

For C9 the filesystem is a state: whether `os.path.exists(output_dir)` holds,
and the outcome of `os.listdir(output_dir)` — which can raise even when
`os.path.exists` returned `True` (unreadable directory, or the path is a
regular file, in which case `os.listdir` raises `NotADirectoryError`).
Nothing in `_already_collected_ids` catches such an exception: the
`try/except` inside the loop only wraps the per-filename `int` parse, so a
listing failure propagates to the caller. -/

/-- The filesystem as observed by `_already_collected_ids`. -/
structure RawDirState where
  dirExists : Bool
  listing : Except Unit (List (List Char))

/-- `_already_collected_ids` against a filesystem state: missing directory ↦
empty set; listing failure ↦ the exception propagates; otherwise parse the
listing. -/
def already_collected_ids_fs (pre : List Char) (fs : RawDirState) :
    Except Unit (List Nat) :=
  if fs.dirExists = false then Except.ok []
  else
    match fs.listing with
    | Except.ok files => Except.ok (already_collected_ids pre files)
    | Except.error e => Except.error e

/-- C9 counterexample — a state in which the output directory cannot be
listed (it exists — e.g. as a regular file — but `os.listdir` raises):
`_already_collected_ids` propagates the exception instead of returning the
empty checkpoint set. -/
theorem already_collected_ids_listing_error :
    already_collected_ids_fs "player_".toList ⟨true, Except.error ()⟩ =
        Except.error () ∧
      already_collected_ids_fs "player_".toList ⟨true, Except.error ()⟩ ≠
        Except.ok [] := by
  refine ⟨rfl, ?_⟩
  intro h
  exact Except.noConfusion h

/-- C9 (amended) — only the nonexistence case is treated as "nothing
collected yet": when the output directory does not exist the scan returns the
empty set, but when the directory exists and listing it raises, the exception
propagates out of `_already_collected_ids`. -/
theorem already_collected_ids_failure_modes (pre : List Char) (fs : RawDirState) :
    (fs.dirExists = false → already_collected_ids_fs pre fs = Except.ok []) ∧
      (∀ e, fs.dirExists = true → fs.listing = Except.error e →
        already_collected_ids_fs pre fs = Except.error e) := by
  constructor
  · intro h
    rw [already_collected_ids_fs, if_pos h]
  · intro e h1 h2
    rw [already_collected_ids_fs, if_neg (by rw [h1]; simp), h2]

/-- Witness for C9's amended theorem: both failure modes at concrete states. -/
theorem already_collected_ids_failure_modes_witness :
    already_collected_ids_fs "player_".toList ⟨false, Except.ok []⟩ =
        Except.ok [] ∧
      already_collected_ids_fs "player_".toList ⟨true, Except.error ()⟩ =
        Except.error () :=
  ⟨(already_collected_ids_failure_modes "player_".toList
      ⟨false, Except.ok []⟩).1 rfl,
    (already_collected_ids_failure_modes "player_".toList
      ⟨true, Except.error ()⟩).2 () rfl rfl⟩

end OpenMuse
